import Mathlib

/-!
Verification development for the CulinaryChronicler repository.

The repository is a notebook (`src/CulinaryChronicler.ipynb`) that wires
third-party components (chromadb, llama_index, an Ollama model) into a
retrieval-augmented query-routing pipeline over two source texts
(a cookbook and a food dictionary).

The notebook's own executable logic is embedded here directly from the
source.  The retrieval core itself (vector index, retriever, tool
registry, routing-agent turn) is implemented by the imported libraries,
not by code of this repository; where a claim is decided by that core,
the definitions below are modelled from the specification (each such
definition says so in its doc comment).
-/

namespace CulinaryChronicler

/-- Tool metadata, from the source's `ToolMetadata(name=..., description=...)`
constructor calls: a name and a description string. -/
structure ToolMetadata where
  name : String
  description : String
deriving DecidableEq, Repr

/-- A query-engine tool, from the source's `QueryEngineTool(query_engine=...,
metadata=...)`: an engine together with its metadata.  The engine type is a
parameter because the engine itself is a library object the notebook only
passes around. -/
structure QueryEngineTool (Engine : Type) where
  query_engine : Engine
  metadata : ToolMetadata
deriving DecidableEq, Repr

/-- Embedding of `create_query_engine_tools(cookbook_engine, dictionary_engine)`
from the source: returns the two-element list of tools, the first named
"Food_Cookbook" over the cookbook engine, the second named "Food_Dictionary"
over the dictionary engine, with the source's description strings. -/
def create_query_engine_tools {Engine : Type} (cookbook_engine dictionary_engine : Engine) :
    List (QueryEngineTool Engine) :=
  [ ⟨cookbook_engine,
      ⟨"Food_Cookbook",
       "Provides a collection of 175 choice recipes from the Chicago Women\x27s Club in 1887."⟩⟩,
    ⟨dictionary_engine,
      ⟨"Food_Dictionary",
       "Provides definitions of words related to English cuisine and food industry terms."⟩⟩ ]

/-- The agent worker, from the source's
`FunctionCallingAgentWorker.from_tools(query_engine_tools, verbose=False,
allow_parallel_tool_calls=False)`: it records the tools and the two flags. -/
structure FunctionCallingAgentWorker (Engine : Type) where
  tools : List (QueryEngineTool Engine)
  verbose : Bool
  allow_parallel_tool_calls : Bool
deriving DecidableEq, Repr

/-- The agent runner, from the source's `AgentRunner(agent_worker)`. -/
structure AgentRunner (Engine : Type) where
  worker : FunctionCallingAgentWorker Engine
deriving DecidableEq, Repr

/-- Embedding of `create_agent(query_engine_tools)` from the source: builds a
`FunctionCallingAgentWorker` with `verbose=False` and
`allow_parallel_tool_calls=False` and wraps it in an `AgentRunner`. -/
def create_agent {Engine : Type} (query_engine_tools : List (QueryEngineTool Engine)) :
    AgentRunner Engine :=
  ⟨⟨query_engine_tools, false, false⟩⟩

/-- Modelled from the spec: the error taxonomy of §7 for the retrieval layer,
which is implemented by the external libraries and missing from the source.
`NotFoundError` signals an unknown collection, `EmbeddingUnavailableError` a
failing embedding provider. -/
inductive RetrievalError where
  | notFound (collection : String)
  | embeddingUnavailable
deriving DecidableEq, Repr

/-- Modelled from the spec: a chunk of the data model of §3,
`{id, document_id, text, embedding_vector}`; the chunking policy itself is
external, so chunks are taken as given. -/
structure Chunk where
  id : String
  document_id : String
  text : String
  embedding_vector : List ℚ
deriving DecidableEq, Repr

/-- Modelled from the spec: the vector index of §4.1, missing from the source
(it lives in chromadb).  A map from collection names to the chunks of that
collection, kept in insertion order; represented as an association list. -/
abbrev VectorIndex := List (String × List Chunk)

/-- Modelled from the spec: name lookup of a collection in the index
(§3: "lookups are by name"); the first binding of the name wins. -/
def lookupCollection (idx : VectorIndex) (collection : String) : Option (List Chunk) :=
  (idx.find? (fun p => p.1 == collection)).map (fun p => p.2)

/-- Modelled from the spec: `upsert` inside one collection (§4.1): re-upsert of
an already present chunk id replaces its vector in place (no duplicate); a new
id is appended, preserving insertion order. -/
def upsertChunk (entries : List Chunk) (chunk : Chunk) (vector : List ℚ) : List Chunk :=
  let stored : Chunk := ⟨chunk.id, chunk.document_id, chunk.text, vector⟩
  if entries.any (fun e => e.id == chunk.id) then
    entries.map (fun e => if e.id == chunk.id then stored else e)
  else
    entries ++ [stored]

/-- Modelled from the spec: `upsert(collection, chunk, vector)` of §4.1, acting
on the named collection of the index and leaving the others untouched. -/
def upsert (idx : VectorIndex) (collection : String) (chunk : Chunk) (vector : List ℚ) :
    VectorIndex :=
  idx.map (fun p => if p.1 == collection then (p.1, upsertChunk p.2 chunk vector) else p)

/-- Modelled from the spec: chunks paired with their insertion position inside
a collection, used to break score ties by original insertion order (§4.1). -/
def numbered : Nat → List Chunk → List (Nat × Chunk)
  | _, [] => []
  | n, c :: cs => (n, c) :: numbered (n + 1) cs

/-- Modelled from the spec: every chunk of a collection scored against the
query vector.  The spec fixes cosine similarity; the metric is a parameter
`sim` here because the embedding space belongs to the external provider and
none of the verified properties depend on the particular metric, only on the
ordering of scores. -/
def scoreChunks (sim : List ℚ → List ℚ → ℚ) (query_vector : List ℚ)
    (entries : List Chunk) : List (Nat × Chunk × ℚ) :=
  (numbered 0 entries).map (fun p => (p.1, p.2, sim p.2.embedding_vector query_vector))

/-- Modelled from the spec: the ranking order of search results (§4.1): higher
score first, equal scores broken by the earlier insertion position. -/
def rankRel (a b : Nat × Chunk × ℚ) : Prop :=
  b.2.2 < a.2.2 ∨ (a.2.2 = b.2.2 ∧ a.1 ≤ b.1)

instance : DecidableRel rankRel := fun a b => by
  unfold rankRel; exact inferInstance

instance : IsTotal (Nat × Chunk × ℚ) rankRel := by
  constructor
  intro a b
  rcases lt_trichotomy a.2.2 b.2.2 with h | h | h
  · exact Or.inr (Or.inl h)
  · rcases Nat.le_total a.1 b.1 with h1 | h1
    · exact Or.inl (Or.inr ⟨h, h1⟩)
    · exact Or.inr (Or.inr ⟨h.symm, h1⟩)
  · exact Or.inl (Or.inl h)

instance : IsTrans (Nat × Chunk × ℚ) rankRel := by
  constructor
  intro a b c hab hbc
  rcases hab with hab | ⟨hab, hab'⟩ <;> rcases hbc with hbc | ⟨hbc, hbc'⟩
  · exact Or.inl (hbc.trans hab)
  · exact Or.inl (by rw [← hbc]; exact hab)
  · exact Or.inl (by rw [hab]; exact hbc)
  · exact Or.inr ⟨hab.trans hbc, hab'.trans hbc'⟩

/-- Modelled from the spec: the chunks of a collection scored and sorted for a
query, best score first, ties by insertion position. -/
def rank (sim : List ℚ → List ℚ → ℚ) (query_vector : List ℚ)
    (entries : List Chunk) : List (Nat × Chunk × ℚ) :=
  (scoreChunks sim query_vector entries).insertionSort rankRel

/-- Modelled from the spec: `search(collection, query_vector, k)` of §4.1,
missing from the source.  An unknown collection name fails with
`NotFoundError`; otherwise the top `k` scored chunks are returned, descending
by score, ties by insertion order, `k` larger than the collection clamped.
The function is pure: it returns only the result and never modifies or
creates a collection. -/
def search (sim : List ℚ → List ℚ → ℚ) (idx : VectorIndex) (collection : String)
    (query_vector : List ℚ) (k : Nat) : Except RetrievalError (List (Chunk × ℚ)) :=
  match lookupCollection idx collection with
  | none => .error (.notFound collection)
  | some entries =>
      .ok (((rank sim query_vector entries).take k).map (fun t => (t.2.1, t.2.2)))

/-- Modelled from the spec: a registered tool of §3,
`{name, description, bound_collection}`. -/
structure Tool where
  name : String
  description : String
  bound_collection : String
deriving DecidableEq, Repr

/-- Modelled from the spec: the tool registry of §4.3, a sequence of tools in
registration order. -/
abbrev ToolRegistry := List Tool

/-- Modelled from the spec: the registration error of §4.3 and §7. -/
inductive RegistryError where
  | duplicateName (name : String)
deriving DecidableEq, Repr

/-- Modelled from the spec: `register(name, description, retriever)` of §4.3,
missing from the source.  A name already present fails with
`DuplicateNameError`; otherwise the tool is appended, preserving registration
order. -/
def register (reg : ToolRegistry) (name description bound_collection : String) :
    Except RegistryError ToolRegistry :=
  if reg.any (fun t => t.name == name) then .error (.duplicateName name)
  else .ok (reg ++ [⟨name, description, bound_collection⟩])

/-- Modelled from the spec: `list()` of §4.3, the registered tools in
registration order. -/
def listTools (reg : ToolRegistry) : List Tool := reg

/-- Modelled from the spec: the agent-level error of §7, `ToolExecutionError`
wrapping the retrieval-layer failure that caused it. -/
inductive AgentError where
  | toolExecution (cause : RetrievalError)
deriving DecidableEq, Repr

/-- Modelled from the spec: the `ToolExecution` state of the §4.4 state
machine: the chosen tools are invoked in order through their retriever; the
first retrieval failure aborts, otherwise the retrieved chunk lists are
concatenated. -/
def execute_tools {Engine : Type}
    (retrieve : QueryEngineTool Engine → Except RetrievalError (List (Chunk × ℚ))) :
    List (QueryEngineTool Engine) → Except RetrievalError (List (Chunk × ℚ))
  | [] => .ok []
  | t :: ts =>
      match retrieve t with
      | .error e => .error e
      | .ok r =>
          match execute_tools retrieve ts with
          | .error e => .error e
          | .ok rs => .ok (r ++ rs)

/-- Modelled from the spec: one pass of the §4.4 routing-agent state machine
`Idle → ToolSelection → ToolExecution → AnswerComposition → Idle`, the loop the
external `AgentRunner.chat` implements.  `choice` is the raw tool selection
proposed by the language model; when the worker was built with
`allow_parallel_tool_calls=False` it is cut down to at most one tool.  The
pair returned is the list of tools actually invoked and the outcome of the
turn: a composed answer, or a `ToolExecutionError` when a chosen tool's
retrieval failed. -/
def run_turn {Engine Answer : Type} (agent : AgentRunner Engine)
    (choice : List (QueryEngineTool Engine))
    (retrieve : QueryEngineTool Engine → Except RetrievalError (List (Chunk × ℚ)))
    (compose : String → List (Chunk × ℚ) → Answer) (query : String) :
    List (QueryEngineTool Engine) × Except AgentError Answer :=
  let chosen := if agent.worker.allow_parallel_tool_calls then choice else choice.take 1
  (chosen,
    match execute_tools retrieve chosen with
    | .error e => .error (.toolExecution e)
    | .ok rs => .ok (compose query rs))

/-- Errors raised by `load_dictionary_data` in the source: Python's
`FileNotFoundError` (carrying the missing path) and `ValueError`. -/
inductive LoadError where
  | fileNotFound (path : String)
  | valueError (msg : String)
deriving DecidableEq, Repr

/-- The file-system state `load_dictionary_data` interacts with:
`os.path.exists` / `pickle.load` on the pickle path are modelled by the
`pickles` table (existing pickle files with their unpickled documents), and
`os.path.exists` on the PDF path by the `pdfs` table of existing PDF files.
The document type is a parameter: document contents are opaque here. -/
structure FileSystem (Doc : Type) where
  pickles : List (String × List Doc)
  pdfs : List String
deriving DecidableEq, Repr

/-- Embedding of `load_dictionary_data(pickle_path, pdf_path, use_pickle=True,
llama_cloud_api_key=None)` from the source.  With ` use_pickle` true it raises
`FileNotFoundError` when the pickle file is absent and otherwise unpickles it;
with ` use_pickle` false it raises `ValueError` on a falsy API key (Python
truthiness: `None` or the empty string), raises `FileNotFoundError` when the
PDF is absent, and otherwise parses the PDF with LlamaParse (the external
parser is the `parse` parameter) and writes the result to the pickle path.
The function returns the documents together with the file system after the
call. -/
def load_dictionary_data {Doc : Type} (fs : FileSystem Doc) (parse : String → List Doc)
    (pickle_path pdf_path : String) ( use_pickle : Bool)
    (llama_cloud_api_key : Option String) :
    Except LoadError (List Doc × FileSystem Doc) :=
  if use_pickle then
    match fs.pickles.lookup pickle_path with
    | none => .error (.fileNotFound pickle_path)
    | some docs => .ok (docs, fs)
  else
    if llama_cloud_api_key.getD "" == "" then
      .error (.valueError "LlamaParse API key is required when not using pickle file.")
    else if pdf_path ∈ fs.pdfs then
      let dictionary_docs := parse pdf_path
      .ok (dictionary_docs, ⟨(pickle_path, dictionary_docs) :: fs.pickles, fs.pdfs⟩)
    else
      .error (.fileNotFound pdf_path)

/-- Configuration constant from the source. -/
def CHROMA_DB_PATH : String := "local_db_ollama/"

/-- Configuration constant from the source. -/
def DICTIONARY_PICKLE_PATH : String := "raw_dictionary_documents"

/-- Configuration constant from the source. -/
def DICTIONARY_PATH : String := "data/dictionary-of-food.pdf"

/-- The storage context returned by the source's `create_vector_store`: it
wraps a `ChromaVectorStore` bound to one Chroma collection, modelled by the
name of that collection. -/
structure StorageContext where
  collection_name : String
deriving DecidableEq, Repr

/-- A `VectorStoreIndex` handle as returned by the source's `create_index`:
its queries go to the collection of the storage context it was built on,
modelled by that collection's name. -/
structure VectorStoreIndex where
  collection_name : String
deriving DecidableEq, Repr

/-- Embedding of `create_vector_store(db_path, collection_name)` from the
source: `chromadb.PersistentClient` opens the database (passed in here as the
`db` state), `get_or_create_collection` creates the named collection when it
is absent — it never fails on an existing one — and the returned storage
context is bound to that collection. -/
def create_vector_store (db : VectorIndex) (collection_name : String) :
    VectorIndex × StorageContext :=
  (if db.any (fun p => p.1 == collection_name) then db
   else db ++ [(collection_name, [])],
   ⟨collection_name⟩)

/-- Embedding of `create_index(documents, storage_context)` from the source:
`VectorStoreIndex.from_documents` embeds every chunk of the documents and
inserts it into the vector store of the storage context, i.e. into its bound
Chroma collection; the returned index handle queries that same collection.
Documents are modelled at chunk granularity (splitting and embedding are
external), so the input is the list of chunks with their vectors. -/
def create_index (db : VectorIndex) (documents : List Chunk)
    (storage_context : StorageContext) : VectorIndex × VectorStoreIndex :=
  (documents.foldl
     (fun d c => upsert d storage_context.collection_name c c.embedding_vector) db,
   ⟨storage_context.collection_name⟩)

/-- Embedding of the module-level wiring of source cell 4, starting from a
fresh database at `CHROMA_DB_PATH`:
`storage_context = create_vector_store(CHROMA_DB_PATH, "dictionary_food")`,
`cookbook_index = create_index(cookbook_docs, storage_context)`,
`dictionary_index = create_index(dictionary_docs, storage_context)`.
Returns the resulting database together with the cookbook index handle and
the dictionary index handle. -/
def notebook_pipeline (cookbook_docs dictionary_docs : List Chunk) :
    VectorIndex × VectorStoreIndex × VectorStoreIndex :=
  let p1 := create_vector_store [] "dictionary_food"
  let p2 := create_index p1.1 cookbook_docs p1.2
  let p3 := create_index p2.1 dictionary_docs p1.2
  (p3.1, p2.2, p3.2)

/-- An example similarity function used to instantiate the `sim` parameter on
concrete inputs: the first coordinate of the chunk vector.  (The spec's cosine
similarity lives in the external embedding provider; any concrete scoring
function exercises the ordering properties equally.) -/
def headSim (u _v : List ℚ) : ℚ := u.headI

instance {ε α : Type} [DecidableEq ε] [DecidableEq α] : DecidableEq (Except ε α)
  | .error e, .error e' =>
      if h : e = e' then isTrue (by rw [h])
      else isFalse (by intro hc; cases hc; exact h rfl)
  | .error _, .ok _ => isFalse (by intro h; cases h)
  | .ok _, .error _ => isFalse (by intro h; cases h)
  | .ok a, .ok a' =>
      if h : a = a' then isTrue (by rw [h])
      else isFalse (by intro hc; cases hc; exact h rfl)

/-- A concrete cookbook chunk, used to evaluate the module-level wiring. -/
def cbChunk : Chunk := ⟨"cb1", "cookbook_doc", "A choice recipe.", [1]⟩

/-- A concrete dictionary chunk, used to evaluate the module-level wiring. -/
def ddChunk : Chunk := ⟨"dd1", "dictionary_doc", "A food term.", [0]⟩

/-- A concrete file-system state with no pickle file and an existing
dictionary PDF, used to evaluate `load_dictionary_data` on a cache miss. -/
def fsC3 : FileSystem Nat := ⟨[], ["data/dictionary-of-food.pdf"]⟩

/-- A concrete stand-in for the external LlamaParse parser. -/
def parseC3 : String → List Nat := fun _ => [7]

/-- A concrete two-chunk collection with equal embedding vectors (so that
search scores tie), used to evaluate `search`. -/
def entriesW : List Chunk :=
  [⟨"x", "doc", "alpha", [1, 0]⟩, ⟨"y", "doc", "beta", [1, 0]⟩]

/-- A concrete one-collection vector index over `entriesW`. -/
def idxW : VectorIndex := [("dictionary_food", entriesW)]

/-- A concrete chunk whose id "x" is already present in `entriesW`, used to
evaluate re-upsert. -/
def chunkW : Chunk := ⟨"x", "doc", "alpha", [2, 2]⟩

/-- A concrete tool over a trivial engine, used to evaluate the agent turn. -/
def toolW : QueryEngineTool Unit := ⟨(), ⟨"Food_Cookbook", "recipes"⟩⟩

/-- A concrete retriever whose embedding provider is down. -/
def retrieveFailW : QueryEngineTool Unit → Except RetrievalError (List (Chunk × ℚ)) :=
  fun _ => .error .embeddingUnavailable

/-- A concrete answer-composition function. -/
def composeW : String → List (Chunk × ℚ) → Nat := fun _ _ => 0

/-- A concrete registry holding the notebook's two tools, in registration
order. -/
def regW : ToolRegistry :=
  [⟨"Food_Cookbook", "Provides a collection of 175 choice recipes.", "cookbook"⟩,
   ⟨"Food_Dictionary", "Provides definitions of cuisine terms.", "dictionary"⟩]

/-- An agent as the source's `query_agent` sees it: anything exposing a `chat`
method from a query string to a response.  The concrete `AgentRunner.chat` is
library code external to the repository, so it is abstract here. -/
structure ChatAgent (Response : Type) where
  chat : String → Response

/-- Embedding of `query_agent(agent, query)` from the source: the body is
exactly `return agent.chat(query)`. -/
def query_agent {Response : Type} (agent : ChatAgent Response) (query : String) : Response :=
  agent.chat query

/-- Numbering a list of chunks preserves its length. -/
theorem numbered_length (n : Nat) (l : List Chunk) :
    (numbered n l).length = l.length := by
  induction l generalizing n with
  | nil => rfl
  | cons c cs ih => simp [numbered, ih]

/-- Every position produced by `numbered n` is at least `n`. -/
theorem numbered_fst_ge (n : Nat) (l : List Chunk) :
    ∀ p ∈ numbered n l, n ≤ p.1 := by
  induction l generalizing n with
  | nil => intro p hp; cases hp
  | cons c cs ih =>
    intro p hp
    rcases List.mem_cons.mp hp with h | h
    · rw [h]
    · exact le_trans (Nat.le_succ n) (ih (n + 1) p h)

/-- The positions produced by `numbered` increase strictly. -/
theorem numbered_pairwise_lt (n : Nat) (l : List Chunk) :
    (numbered n l).Pairwise (fun a b => a.1 < b.1) := by
  induction l generalizing n with
  | nil => exact List.Pairwise.nil
  | cons c cs ih =>
    refine List.Pairwise.cons ?_ (ih (n + 1))
    intro p hp
    exact lt_of_lt_of_le (Nat.lt_succ_self n) (numbered_fst_ge (n + 1) cs p hp)

/-- Ranking preserves the number of chunks of the collection. -/
theorem rank_length (sim : List ℚ → List ℚ → ℚ) (query_vector : List ℚ)
    (entries : List Chunk) :
    (rank sim query_vector entries).length = entries.length := by
  unfold rank scoreChunks
  rw [List.length_insertionSort, List.length_map, numbered_length]

/-- The ranked list is sorted for the ranking order. -/
theorem rank_sorted (sim : List ℚ → List ℚ → ℚ) (query_vector : List ℚ)
    (entries : List Chunk) :
    (rank sim query_vector entries).Pairwise rankRel :=
  List.sorted_insertionSort rankRel _

/-- The insertion positions in the ranked list are pairwise distinct. -/
theorem rank_pairwise_fst_ne (sim : List ℚ → List ℚ → ℚ) (query_vector : List ℚ)
    (entries : List Chunk) :
    (rank sim query_vector entries).Pairwise (fun a b => a.1 ≠ b.1) := by
  have hs : (scoreChunks sim query_vector entries).Pairwise (fun a b => a.1 ≠ b.1) := by
    unfold scoreChunks
    rw [List.pairwise_map]
    exact (numbered_pairwise_lt 0 entries).imp (fun h => Nat.ne_of_lt h)
  exact (List.Perm.pairwise_iff (fun h => Ne.symm h)
    (List.perm_insertionSort rankRel (scoreChunks sim query_vector entries))).mpr hs

/-- C6: for all `k ≥ 1` and every known non-empty collection, `search` returns
an `ok` result: a sequence of (chunk, score) pairs sorted non-increasing by
score, of length exactly `min k collection_size` — `k` larger than the
collection is clamped, not an error — and the underlying ranked selection
orders equal-score ties strictly by original insertion position. -/
theorem c6_search_sorted_clamped (sim : List ℚ → List ℚ → ℚ) (idx : VectorIndex)
    (collection : String) (query_vector : List ℚ) (k : Nat) (entries : List Chunk)
    (h : lookupCollection idx collection = some entries)
    (_hne : entries ≠ []) (_hk : 1 ≤ k) :
    ∃ res, search sim idx collection query_vector k = .ok res ∧
      res.length = min k entries.length ∧
      res.Pairwise (fun p p' => p'.2 ≤ p.2) ∧
      res = ((rank sim query_vector entries).take k).map (fun t => (t.2.1, t.2.2)) ∧
      ((rank sim query_vector entries).take k).Pairwise
        (fun a b => a.2.2 = b.2.2 → a.1 < b.1) := by
  refine ⟨((rank sim query_vector entries).take k).map (fun t => (t.2.1, t.2.2)),
    by simp [search, h], ?_, ?_, rfl, ?_⟩
  · simp [List.length_take, rank_length]
  · rw [List.pairwise_map]
    refine List.Pairwise.imp ?_
      (List.Pairwise.sublist (List.take_sublist k _)
        (rank_sorted sim query_vector entries))
    intro a b hr
    rcases hr with hlt | ⟨heq, _⟩
    · exact le_of_lt hlt
    · exact le_of_eq heq.symm
  · have hand := (rank_sorted sim query_vector entries).and
      (rank_pairwise_fst_ne sim query_vector entries)
    refine List.Pairwise.sublist (List.take_sublist k _) (hand.imp ?_)
    intro a b hab heq
    rcases hab with ⟨hlt | ⟨_, hle⟩, hne'⟩
    · rw [heq] at hlt; exact absurd hlt (lt_irrefl _)
    · exact lt_of_le_of_ne hle hne'

/-- Witness for C6 at a concrete two-chunk collection whose chunks tie in
score: `k = 3` is clamped to length 2, the result is sorted, and the tie is
ordered by insertion position. -/
theorem c6_search_sorted_clamped_witness :
    lookupCollection idxW "dictionary_food" = some entriesW ∧
    entriesW ≠ [] ∧ 1 ≤ 3 ∧
    (∃ res, search headSim idxW "dictionary_food" [1, 0] 3 = .ok res ∧
      res.length = min 3 entriesW.length ∧
      res.Pairwise (fun p p' => p'.2 ≤ p.2) ∧
      res = ((rank headSim [1, 0] entriesW).take 3).map (fun t => (t.2.1, t.2.2)) ∧
      ((rank headSim [1, 0] entriesW).take 3).Pairwise
        (fun a b => a.2.2 = b.2.2 → a.1 < b.1)) :=
  ⟨rfl, by decide, by decide,
   c6_search_sorted_clamped headSim idxW "dictionary_food" [1, 0] 3 entriesW rfl
     (by decide) (by decide)⟩

/-- Replacing the entry of an already present chunk id leaves exactly that one
replaced entry among the entries with this id, when ids are unique. -/
theorem filter_map_replace (entries : List Chunk) (chunk : Chunk) (vector : List ℚ)
    (h : (entries.map Chunk.id).Nodup)
    (hany : entries.any (fun e => e.id == chunk.id) = true) :
    (entries.map (fun e => if e.id == chunk.id then
        (⟨chunk.id, chunk.document_id, chunk.text, vector⟩ : Chunk) else e)).filter
      (fun e => e.id == chunk.id) =
      [⟨chunk.id, chunk.document_id, chunk.text, vector⟩] := by
  induction entries with
  | nil => simp at hany
  | cons e es ih =>
    rw [List.map_cons, List.nodup_cons] at h
    by_cases he : (e.id == chunk.id) = true
    · rw [List.map_cons, if_pos he, List.filter_cons_of_pos (by simp)]
      have heq : e.id = chunk.id := by simpa using he
      have hnil : (es.map (fun e => if e.id == chunk.id then
          (⟨chunk.id, chunk.document_id, chunk.text, vector⟩ : Chunk) else e)).filter
          (fun e => e.id == chunk.id) = [] := by
        rw [List.filter_eq_nil_iff]
        intro x hx
        rcases List.mem_map.mp hx with ⟨e', he', rfl⟩
        have hne' : e'.id ≠ chunk.id := by
          intro hc
          refine h.1 ?_
          rw [heq, ← hc]
          exact List.mem_map_of_mem Chunk.id he'
        rw [if_neg (by simpa using hne')]
        simpa using hne'
      rw [hnil]
    · have he' : (e.id == chunk.id) = false := by simpa using he
      have hne2 : ¬(e.id = chunk.id) := by simpa using he
      rw [List.any_cons, he', Bool.false_or] at hany
      simpa [List.filter_cons, he', hne2] using ih h.2 hany

/-- The entries with the upserted chunk's id after one `upsertChunk` are
exactly the single stored entry, when ids are unique. -/
theorem filter_upsertChunk_of_nodup (entries : List Chunk) (chunk : Chunk)
    (vector : List ℚ) (h : (entries.map Chunk.id).Nodup) :
    (upsertChunk entries chunk vector).filter (fun e => e.id == chunk.id) =
      [⟨chunk.id, chunk.document_id, chunk.text, vector⟩] := by
  by_cases hany : entries.any (fun e => e.id == chunk.id) = true
  · simp only [upsertChunk, if_pos hany]
    exact filter_map_replace entries chunk vector h hany
  · have hany' : entries.any (fun e => e.id == chunk.id) = false := by simpa using hany
    have h1 : entries.filter (fun e => e.id == chunk.id) = [] :=
      List.filter_eq_nil_iff.mpr (List.any_eq_false.mp hany')
    simp only [upsertChunk, if_neg hany, List.filter_append, h1, List.nil_append]
    simp

/-- `upsertChunk` keeps chunk ids unique. -/
theorem nodup_ids_upsertChunk (entries : List Chunk) (chunk : Chunk) (vector : List ℚ)
    (h : (entries.map Chunk.id).Nodup) :
    ((upsertChunk entries chunk vector).map Chunk.id).Nodup := by
  by_cases hany : entries.any (fun e => e.id == chunk.id) = true
  · have hids : (upsertChunk entries chunk vector).map Chunk.id = entries.map Chunk.id := by
      simp only [upsertChunk, if_pos hany, List.map_map]
      refine List.map_congr_left ?_
      intro e _
      by_cases he : (e.id == chunk.id) = true
      · have heq : e.id = chunk.id := by simpa using he
        simp [Function.comp, heq]
      · simp [Function.comp, he]
    rw [hids]
    exact h
  · have hany' : entries.any (fun e => e.id == chunk.id) = false := by simpa using hany
    have hnotin : chunk.id ∉ entries.map Chunk.id := by
      intro hc
      rcases List.mem_map.mp hc with ⟨e, he, heq⟩
      exact (List.any_eq_false.mp hany' e he) (by simpa using heq)
    simp only [upsertChunk, if_neg hany, List.map_append, List.map_cons, List.map_nil]
    refine List.Nodup.append h (by simp) ?_
    rw [List.disjoint_singleton]
    exact hnotin

/-- Upserting into the named collection acts as `upsertChunk` on its chunk
list, as seen through name lookup. -/
theorem lookupCollection_upsert (idx : VectorIndex) (collection : String)
    (chunk : Chunk) (vector : List ℚ) :
    lookupCollection (upsert idx collection chunk vector) collection =
      (lookupCollection idx collection).map (fun es => upsertChunk es chunk vector) := by
  induction idx with
  | nil => rfl
  | cons p ps ih =>
    by_cases hp : (p.1 == collection) = true
    · simp only [upsert, lookupCollection, List.map_cons, if_pos hp]
      simp [List.find?_cons, hp]
    · have hp' : (p.1 == collection) = false := by simpa using hp
      have hp2 : ¬(p.1 = collection) := by simpa using hp
      have := ih
      simp only [upsert, lookupCollection] at this ⊢
      simpa [List.find?_cons, hp', hp2] using this

/-- A second `upsertChunk` of the same chunk and vector changes nothing. -/
theorem upsertChunk_idem (entries : List Chunk) (chunk : Chunk) (vector : List ℚ) :
    upsertChunk (upsertChunk entries chunk vector) chunk vector =
      upsertChunk entries chunk vector := by
  by_cases hany : entries.any (fun e => e.id == chunk.id) = true
  · have h1 : upsertChunk entries chunk vector =
        entries.map (fun e => if e.id == chunk.id then
          (⟨chunk.id, chunk.document_id, chunk.text, vector⟩ : Chunk) else e) := by
      simp only [upsertChunk, if_pos hany]
    rw [h1]
    have hany2 : (entries.map (fun e => if e.id == chunk.id then
        (⟨chunk.id, chunk.document_id, chunk.text, vector⟩ : Chunk) else e)).any
        (fun e => e.id == chunk.id) = true := by
      rw [List.any_map]
      rcases List.any_eq_true.mp hany with ⟨e, he, hpe⟩
      refine List.any_eq_true.mpr ⟨e, he, ?_⟩
      simp [Function.comp, hpe]
    simp only [upsertChunk, if_pos hany2, List.map_map]
    refine List.map_congr_left ?_
    intro e _
    by_cases he : (e.id == chunk.id) = true
    · have heq : e.id = chunk.id := by simpa using he
      simp [Function.comp, heq]
    · simp [Function.comp, he]
  · have hany' : entries.any (fun e => e.id == chunk.id) = false := by simpa using hany
    have h1 : upsertChunk entries chunk vector = entries ++
        [⟨chunk.id, chunk.document_id, chunk.text, vector⟩] := by
      simp only [upsertChunk, if_neg hany]
    rw [h1]
    have hany2 : ((entries ++
        [(⟨chunk.id, chunk.document_id, chunk.text, vector⟩ : Chunk)]).any
        (fun e => e.id == chunk.id)) = true := by
      rw [List.any_append]
      simp
    simp only [upsertChunk, if_pos hany2, List.map_append, List.map_cons, List.map_nil]
    congr 1
    · have hfix : ∀ e ∈ entries, (if e.id == chunk.id then
          (⟨chunk.id, chunk.document_id, chunk.text, vector⟩ : Chunk) else e) = id e :=
        fun e he => if_neg (by simpa using List.any_eq_false.mp hany' e he)
      rw [List.map_congr_left hfix, List.map_id]
    · simp

/-- C7: for every collection, chunk and pair of vectors `v1, v2`, upserting
that chunk's id with `v1` and then with `v2` leaves exactly one entry for that
id in the collection (as reached by name lookup in the index), and that entry
carries `v2`, the vector of the latest call; re-upsert replaces rather than
duplicates, and a second upsert with the same vector is idempotent on the
whole index. -/
theorem c7_upsert_replaces_idempotent (idx : VectorIndex) (collection : String)
    (chunk : Chunk) (v1 v2 : List ℚ) :
    (∀ entries, lookupCollection idx collection = some entries →
      (entries.map Chunk.id).Nodup →
      ∃ entries2,
        lookupCollection (upsert (upsert idx collection chunk v1) collection chunk v2)
            collection = some entries2 ∧
        entries2.filter (fun e => e.id == chunk.id) =
          [⟨chunk.id, chunk.document_id, chunk.text, v2⟩]) ∧
    upsert (upsert idx collection chunk v2) collection chunk v2 =
      upsert idx collection chunk v2 := by
  constructor
  · intro entries hl hnd
    refine ⟨upsertChunk (upsertChunk entries chunk v1) chunk v2, ?_, ?_⟩
    · rw [lookupCollection_upsert, lookupCollection_upsert, hl]
      rfl
    · exact filter_upsertChunk_of_nodup _ chunk v2
        (nodup_ids_upsertChunk entries chunk v1 hnd)
  · unfold upsert
    rw [List.map_map]
    refine List.map_congr_left ?_
    intro p _
    by_cases hp : (p.1 == collection) = true
    · simp only [Function.comp, if_pos hp]
      rw [upsertChunk_idem]
    · have hp2 : ¬(p.1 = collection) := by simpa using hp
      simp [Function.comp, hp2]

/-- Witness for C7 at a concrete index: re-upserting id "x" with `[2, 0]` and
then `[3, 0]` leaves exactly one "x" entry, carrying `[3, 0]`, and the
repeated upsert with `[3, 0]` is idempotent. -/
theorem c7_upsert_replaces_idempotent_witness :
    lookupCollection idxW "dictionary_food" = some entriesW ∧
    (entriesW.map Chunk.id).Nodup ∧
    (∃ entries2,
      lookupCollection (upsert (upsert idxW "dictionary_food" chunkW [2, 0])
          "dictionary_food" chunkW [3, 0]) "dictionary_food" = some entries2 ∧
      entries2.filter (fun e => e.id == chunkW.id) =
        [⟨chunkW.id, chunkW.document_id, chunkW.text, [3, 0]⟩]) ∧
    upsert (upsert idxW "dictionary_food" chunkW [3, 0]) "dictionary_food" chunkW
        [3, 0] =
      upsert idxW "dictionary_food" chunkW [3, 0] :=
  ⟨rfl, by decide,
   (c7_upsert_replaces_idempotent idxW "dictionary_food" chunkW [2, 0] [3, 0]).1
     entriesW rfl (by decide),
   (c7_upsert_replaces_idempotent idxW "dictionary_food" chunkW [2, 0] [3, 0]).2⟩

/-- If a collection name occurs nowhere in the index, its lookup is `none`. -/
theorem lookupCollection_eq_none {idx : VectorIndex} {collection : String}
    (h : collection ∉ idx.map Prod.fst) :
    lookupCollection idx collection = none := by
  unfold lookupCollection
  rw [List.find?_eq_none.mpr]
  · rfl
  · intro x hx hPx
    exact h (List.mem_map.mpr ⟨x, hx, by simpa using hPx⟩)

/-- C2: for every collection name not previously created and every query
vector and `k`, `search` on that unknown collection fails with
`NotFoundError`; it never silently returns a result (empty or otherwise),
and — `search` being a pure read — it does not create the collection. -/
theorem c2_search_unknown_collection (sim : List ℚ → List ℚ → ℚ)
    (idx : VectorIndex) (collection : String) (query_vector : List ℚ) (k : Nat)
    (h : collection ∉ idx.map Prod.fst) :
    search sim idx collection query_vector k =
      .error (.notFound collection) ∧
    ∀ res, search sim idx collection query_vector k ≠ .ok res := by
  have hl := lookupCollection_eq_none h
  constructor
  · simp [search, hl]
  · intro res hres
    simp [search, hl] at hres

/-- Witness for C2 at a concrete index: the only collection is
"dictionary_food", and a search on the never-created name "cookbook" fails
with `NotFoundError`. -/
theorem c2_search_unknown_collection_witness :
    "cookbook" ∉ ([("dictionary_food", ([] : List Chunk))].map Prod.fst) ∧
    (search headSim [("dictionary_food", [])] "cookbook" [] 3 =
        .error (.notFound "cookbook") ∧
      ∀ res, search headSim [("dictionary_food", [])] "cookbook" [] 3 ≠ .ok res) :=
  ⟨by decide,
   c2_search_unknown_collection headSim [("dictionary_food", [])] "cookbook" [] 3
     (by decide)⟩

/-- C4: for every registry state and every name already registered in it,
`register` fails with `DuplicateNameError` and never returns a new registry,
so the caller's registry value is the unchanged original and `list()` on it
still returns exactly the previously registered tools in registration
order. -/
theorem c4_register_duplicate_name (reg : ToolRegistry)
    (name description bound_collection : String)
    (h : name ∈ reg.map Tool.name) :
    register reg name description bound_collection =
      .error (.duplicateName name) ∧
    (∀ reg', register reg name description bound_collection ≠ .ok reg') ∧
    listTools reg = reg := by
  have hany : reg.any (fun t => t.name == name) = true := by
    rcases List.mem_map.mp h with ⟨t, ht, hEq⟩
    exact List.any_eq_true.mpr ⟨t, ht, by simpa using hEq⟩
  refine ⟨?_, ?_, rfl⟩
  · simp [register, hany]
  · intro reg' hcontra
    simp [register, hany] at hcontra

/-- Witness for C4, the spec's scenario B: with "Food_Cookbook" and
"Food_Dictionary" registered, registering a third tool also named
"Food_Cookbook" fails with `DuplicateNameError` and `list()` still returns
exactly the original two, in registration order. -/
theorem c4_register_duplicate_name_witness :
    "Food_Cookbook" ∈ regW.map Tool.name ∧
    (register regW "Food_Cookbook" "a third tool" "cookbook" =
        .error (.duplicateName "Food_Cookbook") ∧
      (∀ reg', register regW "Food_Cookbook" "a third tool" "cookbook" ≠ .ok reg') ∧
      listTools regW = regW) :=
  ⟨by decide,
   c4_register_duplicate_name regW "Food_Cookbook" "a third tool" "cookbook" (by decide)⟩

/-- C5: in every single pass of the routing-agent state machine, the agent
built by the source's `create_agent` (which sets
`allow_parallel_tool_calls=False`) invokes at most one tool: whatever raw
selection the language model proposes, the list of tools actually executed in
the turn has length at most one. -/
theorem c5_at_most_one_tool_per_turn {Engine Answer : Type}
    (tools choice : List (QueryEngineTool Engine))
    (retrieve : QueryEngineTool Engine → Except RetrievalError (List (Chunk × ℚ)))
    (compose : String → List (Chunk × ℚ) → Answer) (query : String) :
    ((run_turn (create_agent tools) choice retrieve compose query).1).length ≤ 1 := by
  have h1 : (run_turn (create_agent tools) choice retrieve compose query).1 =
      choice.take 1 := rfl
  rw [h1, List.length_take]
  exact min_le_left _ _

/-- C8: for every turn of the agent built by the source's `create_agent` in
which a tool was chosen, if that tool's retrieval fails (with `NotFoundError`
or `EmbeddingUnavailableError` — the two retrieval-layer errors) then the turn
fails with `ToolExecutionError` wrapping that cause, surfaced to the caller
rather than masked as an answer; and every turn ends in exactly one of two
outcomes, a composed answer or a typed error, never both and never neither. -/
theorem c8_retrieval_failure_surfaced {Engine Answer : Type}
    (tools : List (QueryEngineTool Engine)) (t : QueryEngineTool Engine)
    (rest : List (QueryEngineTool Engine))
    (retrieve : QueryEngineTool Engine → Except RetrievalError (List (Chunk × ℚ)))
    (compose : String → List (Chunk × ℚ) → Answer) (query : String)
    (e : RetrievalError) (hfail : retrieve t = .error e) :
    (run_turn (create_agent tools) (t :: rest) retrieve compose query).2 =
      .error (.toolExecution e) ∧
    ∀ choice : List (QueryEngineTool Engine),
      ((∃ a, (run_turn (create_agent tools) choice retrieve compose query).2 = .ok a) ∧
          ¬∃ err, (run_turn (create_agent tools) choice retrieve compose query).2 =
            .error err) ∨
      ((∃ err, (run_turn (create_agent tools) choice retrieve compose query).2 =
            .error err) ∧
          ¬∃ a, (run_turn (create_agent tools) choice retrieve compose query).2 =
            .ok a) := by
  constructor
  · simp [run_turn, create_agent, execute_tools, hfail]
  · intro choice
    rcases hc : (run_turn (create_agent tools) choice retrieve compose query).2 with er | a
    · refine Or.inr ⟨⟨er, rfl⟩, ?_⟩
      rintro ⟨a, ha⟩
      exact Except.noConfusion ha
    · refine Or.inl ⟨⟨a, rfl⟩, ?_⟩
      rintro ⟨er, her⟩
      exact Except.noConfusion her

/-- Witness for C8 at a concrete turn: a single chosen tool whose retriever
fails with `EmbeddingUnavailableError` makes the turn fail with
`ToolExecutionError`, and every turn with this agent is either an answer or a
typed error. -/
theorem c8_retrieval_failure_surfaced_witness :
    retrieveFailW toolW = .error .embeddingUnavailable ∧
    ((run_turn (create_agent ([] : List (QueryEngineTool Unit))) [toolW] retrieveFailW
        composeW "What is aloo?").2 = .error (.toolExecution .embeddingUnavailable) ∧
      ∀ choice : List (QueryEngineTool Unit),
        ((∃ a, (run_turn (create_agent []) choice retrieveFailW composeW
              "What is aloo?").2 = .ok a) ∧
            ¬∃ err, (run_turn (create_agent []) choice retrieveFailW composeW
              "What is aloo?").2 = .error err) ∨
        ((∃ err, (run_turn (create_agent []) choice retrieveFailW composeW
              "What is aloo?").2 = .error err) ∧
            ¬∃ a, (run_turn (create_agent []) choice retrieveFailW composeW
              "What is aloo?").2 = .ok a)) :=
  ⟨rfl,
   c8_retrieval_failure_surfaced [] toolW [] retrieveFailW composeW "What is aloo?"
     .embeddingUnavailable rfl⟩

/-- C1, evaluated against the code at the failing module-level input: the
notebook builds one storage context on the single Chroma collection
"dictionary_food" and passes it to both `create_index` calls, so the cookbook
index handle and the dictionary index handle are one and the same collection,
and a search through the dictionary index's collection returns the chunk
inserted by the cookbook ingestion.  This contradicts the claimed invariant
that the two corpora live in independent collections sharing no storage. -/
theorem c1_one_collection_backs_both_indexes :
    (notebook_pipeline [cbChunk] [ddChunk]).2.1 =
      (notebook_pipeline [cbChunk] [ddChunk]).2.2 ∧
    (notebook_pipeline [cbChunk] [ddChunk]).2.1.collection_name = "dictionary_food" ∧
    search headSim (notebook_pipeline [cbChunk] [ddChunk]).1
        (notebook_pipeline [cbChunk] [ddChunk]).2.2.collection_name
        cbChunk.embedding_vector 2 =
      .ok [(cbChunk, 1), (ddChunk, 0)] :=
  ⟨rfl, rfl, by decide⟩

/-- C3, counterexample: at the source's own module-level configuration
(`use_pickle=True`) with the pickle cache file absent and the dictionary PDF
present, `load_dictionary_data` fails with `FileNotFoundError` instead of
falling back to the parse path — a cache miss IS an error here, refuting the
claim that loading never fails when the cache file does not exist. -/
theorem c3_cache_miss_fails_counterexample :
    load_dictionary_data fsC3 parseC3 DICTIONARY_PICKLE_PATH DICTIONARY_PATH true none =
      .error (.fileNotFound DICTIONARY_PICKLE_PATH) := rfl

/-- C3 as amended: when ` use_pickle` is true (the default and the
module-level usage), a missing pickle cache file is fatal —
`load_dictionary_data` fails with `FileNotFoundError` and does not fall back
to the parse path; the expensive parse path runs only when the caller
explicitly passes ` use_pickle` false together with a non-empty API key, and
then it succeeds (writing the fresh pickle) without consulting the cache at
all. -/
theorem c3_cache_miss_amended {Doc : Type} (fs : FileSystem Doc)
    (parse : String → List Doc) (pickle_path pdf_path : String)
    (llama_cloud_api_key : Option String) :
    (fs.pickles.lookup pickle_path = none →
      load_dictionary_data fs parse pickle_path pdf_path true llama_cloud_api_key =
        .error (.fileNotFound pickle_path)) ∧
    (∀ key, key ≠ "" → pdf_path ∈ fs.pdfs →
      load_dictionary_data fs parse pickle_path pdf_path false (some key) =
        .ok (parse pdf_path, ⟨(pickle_path, parse pdf_path) :: fs.pickles, fs.pdfs⟩)) := by
  constructor
  · intro hmiss
    simp [load_dictionary_data, hmiss]
  · intro key hkey hpdf
    simp [load_dictionary_data, hkey, hpdf]

/-- Witness for the amended C3 at concrete inputs: with no pickle file on
disk, the pickle path fails with `FileNotFoundError`, and the explicit
`use_pickle=False` call with an API key parses the PDF and succeeds. -/
theorem c3_cache_miss_amended_witness :
    load_dictionary_data fsC3 parseC3 DICTIONARY_PICKLE_PATH DICTIONARY_PATH true none =
      .error (.fileNotFound DICTIONARY_PICKLE_PATH) ∧
    load_dictionary_data fsC3 parseC3 DICTIONARY_PICKLE_PATH DICTIONARY_PATH false
        (some "LLAMA-KEY") =
      .ok (parseC3 DICTIONARY_PATH,
        ⟨(DICTIONARY_PICKLE_PATH, parseC3 DICTIONARY_PATH) :: fsC3.pickles, fsC3.pdfs⟩) :=
  ⟨(c3_cache_miss_amended fsC3 parseC3 DICTIONARY_PICKLE_PATH DICTIONARY_PATH none).1 rfl,
   (c3_cache_miss_amended fsC3 parseC3 DICTIONARY_PICKLE_PATH DICTIONARY_PATH none).2
     "LLAMA-KEY" (by decide) (by decide)⟩

/-- C9: for every agent and every query string, `query_agent agent query` is a
pure delegation: it returns exactly `agent.chat query`, passing the query text
unchanged, adding no retry, no transformation and no state of its own. -/
theorem c9_query_agent_pure_delegation {Response : Type}
    (agent : ChatAgent Response) (query : String) :
    query_agent agent query = agent.chat query := rfl

/-- C10: for every pair of engines, `create_query_engine_tools` returns exactly
two tools, in a fixed order: the first named "Food_Cookbook" and bound to the
first (cookbook) engine, the second named "Food_Dictionary" and bound to the
second (dictionary) engine; the two names are constant, independent of the
inputs, and distinct. -/
theorem c10_create_query_engine_tools_fixed {Engine : Type}
    (cookbook_engine dictionary_engine : Engine) :
    (create_query_engine_tools cookbook_engine dictionary_engine).length = 2 ∧
    (create_query_engine_tools cookbook_engine dictionary_engine).map
        (fun t => t.metadata.name) = ["Food_Cookbook", "Food_Dictionary"] ∧
    (create_query_engine_tools cookbook_engine dictionary_engine).map
        (fun t => t.query_engine) = [cookbook_engine, dictionary_engine] ∧
    "Food_Cookbook" ≠ "Food_Dictionary" := by
  refine ⟨rfl, rfl, rfl, ?_⟩
  decide

end CulinaryChronicler
